import Mathlib

/-!
Shallow embedding of `httpjail.go` (package httpjail): a request-rate
governor. Time instants and durations are modelled as integers (Go
`time.Time` / `time.Duration` in nanoseconds). Per-identifier maps are
modelled as total functions; a missing key reads as the zero value
(empty slice / `none`). All `time.Now()` calls inside one pass of the
middleware handler are taken to read the same instant `now`.
-/

namespace Httpjail

/-- An inbound request as the middleware sees it: the transport-reported
peer address (`req.RemoteAddr`) and the `X-Forwarded-For` header value
when the header is present. -/
structure Request where
  remoteAddr : String
  xForwardedFor : Option String

/-- Go's `req.Header.Get`: the header's value, or `""` when absent. -/
def headerGet (h : Option String) : String := h.getD ""

/-- The `visits` field of `DefaultVisitorLog`: per-identifier visit
timestamps; a missing key reads as the empty sequence (Go nil slice). -/
abbrev VisitMap := String → List Int

/-- The `Sentences` field of `Jail`: per-identifier cooloff expiry. -/
abbrev SentenceMap := String → Option Int

/-- The configuration fields of `type Jail` (httpjail.go): proxied flag,
allowed request count, window duration, silent-denial flag, cooloff. -/
structure Jail where
  isProxied : Bool
  AllowedRequests : Int
  Window : Int
  NoRespond : Bool
  Cooloff : Int

/-- The mutable state a middleware pass acts on: the visitor log's map
and the jail's sentence map. -/
structure JailState where
  visits : VisitMap
  Sentences : SentenceMap

/-- `DefaultVisitorLog.LogVisit`: append the current time to the
identifier's visit sequence. -/
def LogVisit (m : VisitMap) (addr : String) (now : Int) : VisitMap :=
  fun a => if a = addr then m addr ++ [now] else m a

/-- The freshness test inside `CountVisits`:
`visit.After(since) || visit.Equal(since)`. -/
def visitFresh (since v : Int) : Bool := decide (since < v) || decide (v = since)

/-- `DefaultVisitorLog.CountVisits`: collect the visits passing
`visitFresh`, store them back for the identifier (pruning the rest), and
return their number together with the updated map. -/
def CountVisits (m : VisitMap) (addr : String) (since : Int) : Nat × VisitMap :=
  let fresh := (m addr).filter (visitFresh since)
  (fresh.length, fun a => if a = addr then fresh else m a)

/-- `Jail.isSentenced`: a sentence entry exists for the address and its
release is strictly after now (`release.After(time.Now())`). -/
def isSentenced (s : SentenceMap) (addr : String) (now : Int) : Bool :=
  match s addr with
  | none => false
  | some release => decide (now < release)

/-- `Jail.sentence`: overwrite the address's entry with `now + cooloff`
(`time.Now().Add(j.Cooloff)`). -/
def sentence (s : SentenceMap) (addr : String) (cooloff now : Int) : SentenceMap :=
  fun a => if a = addr then some (now + cooloff) else s a

/-- The fixed denial message written by the middleware. -/
def denialMessage : String :=
  "You are doing that too much. Please slow down and try again later."

/-- The observable effect of one middleware pass: whether
`next.ServeHTTP` was invoked, what the middleware itself wrote to the
response, and the state left behind. -/
structure MwResult where
  nextInvoked : Bool
  written : String
  state : JailState

/-- The identifier every map access uses: in proxied mode the handler
first rewrites `req.RemoteAddr` to the `X-Forwarded-For` header value,
otherwise it is the peer address. -/
def resolveId (j : Jail) (req : Request) : String :=
  if j.isProxied then headerGet req.xForwardedFor else req.remoteAddr

/-- One pass of the handler returned by `Jail.Middleware`: log the
visit; if not sentenced, count the visits in the trailing window and
admit when the count is at most `AllowedRequests`; otherwise fall
through to `sentence` and the denial response. -/
def Middleware (j : Jail) (st : JailState) (req : Request) (now : Int) : MwResult :=
  let addr := resolveId j req
  let visits1 := LogVisit st.visits addr now
  if isSentenced st.Sentences addr now then
    { nextInvoked := false
      written := if j.NoRespond then "" else denialMessage
      state := { visits := visits1
                 Sentences := sentence st.Sentences addr j.Cooloff now } }
  else
    let since := now - j.Window
    let r := CountVisits visits1 addr since
    if (r.1 : Int) ≤ j.AllowedRequests then
      { nextInvoked := true
        written := ""
        state := { visits := r.2, Sentences := st.Sentences } }
    else
      { nextInvoked := false
        written := if j.NoRespond then "" else denialMessage
        state := { visits := r.2
                   Sentences := sentence st.Sentences addr j.Cooloff now } }

/-- `NewJail`: window, cooloff and allowed count as given; the zero
values for the proxied and silent flags. -/
def NewJail (window cooloff : Int) (allowedRequests : Int) : Jail :=
  { isProxied := false
    AllowedRequests := allowedRequests
    Window := window
    NoRespond := false
    Cooloff := cooloff }

/-- `NewBasicJail`: the window is `windowSeconds` seconds (nanosecond
durations); the `Cooloff` field is never set, so it keeps Go's zero
value `0`. -/
def NewBasicJail (windowSeconds : Int) (allowedRequests : Int) (noRespond : Bool) : Jail :=
  { isProxied := false
    AllowedRequests := allowedRequests
    Window := windowSeconds * 1000000000
    NoRespond := noRespond
    Cooloff := 0 }

/-- The window count the admission test compares against
`AllowedRequests`: the count returned by `CountVisits` after the current
request has been logged, with cutoff `now - Window`. -/
def postCount (j : Jail) (st : JailState) (req : Request) (now : Int) : Nat :=
  (CountVisits (LogVisit st.visits (resolveId j req) now) (resolveId j req)
    (now - j.Window)).1

/-- Iterated handler passes: `runN j req now n st` is the state after `n`
requests from the same client, all arriving at the instant `now`. -/
def runN (j : Jail) (req : Request) (now : Int) : Nat → JailState → JailState
  | 0, st => st
  | n + 1, st => (Middleware j (runN j req now n st) req now).state

/-- The first half of `CountVisits` as executed: the read of the
identifier's slice (`l.visits[req.RemoteAddr]`), done while holding no
lock. -/
def countVisitsReadStep (m : VisitMap) (addr : String) : List Int := m addr

/-- The second half of `CountVisits` as executed: filtering the snapshot
read earlier and writing it back over the identifier's slice, again with
no lock held. -/
def countVisitsWriteStep (m : VisitMap) (addr : String) (snapshot : List Int)
    (since : Int) : Nat × VisitMap :=
  let fresh := snapshot.filter (visitFresh since)
  (fresh.length, fun a => if a = addr then fresh else m a)

/-- An interleaving the unlocked `CountVisits` permits: task A reads the
snapshot, task B's `LogVisit` (which does hold `logVisitMux`) appends a
visit at `t`, then task A writes its stale snapshot back. -/
def interleavedLostUpdate (m0 : VisitMap) (addr : String) (t since : Int) :
    Nat × VisitMap :=
  let snapshot := countVisitsReadStep m0 addr
  let m1 := LogVisit m0 addr t
  countVisitsWriteStep m1 addr snapshot since

/-- The freshness test is exactly the inclusive-or-after comparison
`since ≤ v`. -/
theorem visitFresh_eq_le (since v : Int) : visitFresh since v = decide (since ≤ v) := by
  rw [Bool.eq_iff_iff]
  simp only [visitFresh, Bool.or_eq_true, decide_eq_true_eq]
  omega

/-- Case analysis of one middleware pass: either the client is under an
active sentence (deny, log only, re-sentence), or it is not and the
post-recording count is within the threshold (admit, prune, board
untouched), or it is not and the count is over (deny, prune,
sentence). -/
theorem Middleware_cases (j : Jail) (st : JailState) (req : Request) (now : Int) :
    (isSentenced st.Sentences (resolveId j req) now = true
      ∧ Middleware j st req now
        = ⟨false, if j.NoRespond then "" else denialMessage,
            ⟨LogVisit st.visits (resolveId j req) now,
             sentence st.Sentences (resolveId j req) j.Cooloff now⟩⟩)
    ∨ (isSentenced st.Sentences (resolveId j req) now = false
      ∧ ((postCount j st req now : Int) ≤ j.AllowedRequests)
      ∧ Middleware j st req now
        = ⟨true, "",
            ⟨(CountVisits (LogVisit st.visits (resolveId j req) now)
                (resolveId j req) (now - j.Window)).2,
             st.Sentences⟩⟩)
    ∨ (isSentenced st.Sentences (resolveId j req) now = false
      ∧ ¬ ((postCount j st req now : Int) ≤ j.AllowedRequests)
      ∧ Middleware j st req now
        = ⟨false, if j.NoRespond then "" else denialMessage,
            ⟨(CountVisits (LogVisit st.visits (resolveId j req) now)
                (resolveId j req) (now - j.Window)).2,
             sentence st.Sentences (resolveId j req) j.Cooloff now⟩⟩) := by
  unfold Middleware postCount
  by_cases h1 : isSentenced st.Sentences (resolveId j req) now
  · simp [h1]
  · by_cases h2 : ((CountVisits (LogVisit st.visits (resolveId j req) now)
        (resolveId j req) (now - j.Window)).1 : Int) ≤ j.AllowedRequests
    · simp [h1, h2]
    · simp [h1, h2]

/-- Reading the count component of `CountVisits`. -/
theorem CountVisits_fst (m : VisitMap) (addr : String) (since : Int) :
    (CountVisits m addr since).1 = ((m addr).filter (visitFresh since)).length := rfl

/-- The pruned sequence `CountVisits` stores back for the queried
identifier. -/
theorem CountVisits_snd_self (m : VisitMap) (addr : String) (since : Int) :
    (CountVisits m addr since).2 addr = (m addr).filter (visitFresh since) := by
  simp [CountVisits]

/-- `CountVisits` leaves every other identifier's sequence untouched. -/
theorem CountVisits_snd_other (m : VisitMap) (addr b : String) (since : Int)
    (h : b ≠ addr) : (CountVisits m addr since).2 b = m b := by
  simp [CountVisits, h]

/-- `LogVisit` appends the current time for the logged identifier. -/
theorem LogVisit_self (m : VisitMap) (addr : String) (now : Int) :
    LogVisit m addr now addr = m addr ++ [now] := by
  simp [LogVisit]

/-- A block of visits all at the same instant, followed by one more at
that instant, survives the freshness filter whole when the window is
non-negative. -/
theorem replicate_fresh_filter (k : Nat) (now W : Int) (hW : 0 ≤ W) :
    (List.replicate k now ++ [now]).filter (visitFresh (now - W))
      = List.replicate (k + 1) now := by
  have hfresh : visitFresh (now - W) now = true := by
    rw [visitFresh_eq_le, decide_eq_true_eq]
    omega
  have hall : ∀ a ∈ List.replicate k now ++ [now],
      visitFresh (now - W) a = true := by
    intro a ha
    rcases List.mem_append.mp ha with h | h
    · rw [List.eq_of_mem_replicate h]
      exact hfresh
    · rw [List.mem_singleton.mp h]
      exact hfresh
  rw [List.filter_eq_self.mpr hall, ← List.replicate_succ']

/-- From a state whose ledger holds `k` visits at `now` for the client
and whose board is empty, the next pass sees window count `k + 1` and no
active sentence. -/
theorem step_at_replicate (j : Jail) (req : Request) (now : Int) (hW : 0 ≤ j.Window)
    (k : Nat) (st : JailState)
    (hv : st.visits (resolveId j req) = List.replicate k now)
    (hsn : st.Sentences = fun _ => (none : Option Int)) :
    postCount j st req now = k + 1
    ∧ isSentenced st.Sentences (resolveId j req) now = false := by
  constructor
  · unfold postCount
    rw [CountVisits_fst, LogVisit_self, hv,
      replicate_fresh_filter k now j.Window hW, List.length_replicate]
  · rw [hsn]
    rfl

/-- Starting from the empty state, as long as the number of passes is
within the threshold every pass is admitted and the state after `k`
passes holds exactly `k` visits at `now` and an empty board. -/
theorem runN_empty_inv (j : Jail) (req : Request) (now : Int) (hW : 0 ≤ j.Window) :
    ∀ k : Nat, (k : Int) ≤ j.AllowedRequests →
      (runN j req now k ⟨fun _ => [], fun _ => none⟩).visits (resolveId j req)
          = List.replicate k now
      ∧ (runN j req now k ⟨fun _ => [], fun _ => none⟩).Sentences
          = fun _ => (none : Option Int) := by
  intro k
  induction k with
  | zero => exact fun _ => ⟨rfl, rfl⟩
  | succ n ih =>
    intro hk
    have hn : (n : Int) ≤ j.AllowedRequests := by
      push_cast at hk
      omega
    obtain ⟨hv, hsn⟩ := ih hn
    obtain ⟨hpc, hns⟩ := step_at_replicate j req now hW n
      (runN j req now n ⟨fun _ => [], fun _ => none⟩) hv hsn
    rcases Middleware_cases j (runN j req now n ⟨fun _ => [], fun _ => none⟩)
        req now with ⟨hst, _⟩ | ⟨_, _, he⟩ | ⟨_, hgt, he⟩
    · rw [hns] at hst
      cases hst
    · constructor
      · show (Middleware j (runN j req now n ⟨fun _ => [], fun _ => none⟩)
            req now).state.visits (resolveId j req) = _
        rw [he]
        show (CountVisits (LogVisit _ _ _) _ _).2 _ = _
        rw [CountVisits_snd_self, LogVisit_self, hv,
          replicate_fresh_filter n now j.Window hW]
      · show (Middleware j (runN j req now n ⟨fun _ => [], fun _ => none⟩)
            req now).state.Sentences = _
        rw [he]
        exact hsn
    · exfalso
      apply hgt
      rw [hpc]
      push_cast at hk ⊢
      omega

/-- C2: `CountVisits` returns exactly the number of stored visits with
timestamp at or after the cutoff (inclusive-or-after), replaces the
identifier's stored sequence with exactly those visits, leaves every
other identifier untouched, and yields 0 for an identifier with no
recorded visits. -/
theorem C2_countSince_inclusive_prune (m : VisitMap) (addr : String) (since : Int) :
    (CountVisits m addr since).1
        = ((m addr).filter (fun v => decide (since ≤ v))).length
    ∧ (CountVisits m addr since).2 addr
        = (m addr).filter (fun v => decide (since ≤ v))
    ∧ (∀ b, b ≠ addr → (CountVisits m addr since).2 b = m b)
    ∧ (m addr = [] → (CountVisits m addr since).1 = 0) := by
  have hf : (m addr).filter (visitFresh since)
      = (m addr).filter (fun v => decide (since ≤ v)) :=
    List.filter_congr fun v _ => visitFresh_eq_le since v
  refine ⟨by simp [CountVisits, hf], by simp [CountVisits, hf], ?_, ?_⟩
  · intro b hb
    simp [CountVisits, hb]
  · intro h0
    simp [CountVisits, h0]

/-- C2 witness: a concrete ledger holding visits at 1, 5 and 9 for "a",
queried with cutoff 5, counts 2, keeps exactly [5, 9], leaves "b"
untouched, and the empty identifier counts 0. -/
theorem C2_countSince_inclusive_prune_witness :
    (CountVisits (fun a => if a = "a" then [1, 5, 9] else []) "a" 5).1
        = (([1, 5, 9] : List Int).filter (fun v => decide ((5 : Int) ≤ v))).length
    ∧ (CountVisits (fun a => if a = "a" then [1, 5, 9] else []) "a" 5).2 "b" = []
    ∧ (CountVisits (fun a => if a = "a" then [1, 5, 9] else []) "b" 5).1 = 0 := by
  refine ⟨(C2_countSince_inclusive_prune _ "a" 5).1, ?_, ?_⟩
  · exact (C2_countSince_inclusive_prune (fun a => if a = "a" then [1, 5, 9] else [])
      "a" 5).2.2.1 "b" (by decide)
  · exact (C2_countSince_inclusive_prune (fun a => if a = "a" then [1, 5, 9] else [])
      "b" 5).2.2.2 (by decide)

/-- C3: a request from a client whose sentence has not expired is
denied, the window-count check (and its pruning) is skipped — the visit
sequence is exactly the old one with the current time appended — and the
sentence expiry is overwritten to now + cooloff, never the maximum of
the old and new expiry. -/
theorem C3_sentenced_deny_rolling (j : Jail) (st : JailState) (req : Request)
    (now : Int)
    (h : isSentenced st.Sentences (resolveId j req) now = true) :
    (Middleware j st req now).nextInvoked = false
    ∧ (Middleware j st req now).state.Sentences (resolveId j req)
        = some (now + j.Cooloff)
    ∧ (Middleware j st req now).state.visits (resolveId j req)
        = st.visits (resolveId j req) ++ [now] := by
  rcases Middleware_cases j st req now with ⟨_, he⟩ | ⟨hns, _, _⟩ | ⟨hns, _, _⟩
  · rw [he]
    exact ⟨rfl, by simp [sentence], by simp [LogVisit]⟩
  · rw [h] at hns
    exact absurd hns (by simp)
  · rw [h] at hns
    exact absurd hns (by simp)

/-- C3 witness: a client sentenced until 100 who requests again at time
10, with cooloff 7, is denied, keeps its logged visit appended, and has
its expiry overwritten to 17. -/
theorem C3_sentenced_deny_rolling_witness :
    (Middleware ⟨false, 1, 10, false, 7⟩ ⟨fun _ => [2], fun _ => some 100⟩
        ⟨"a", none⟩ 10).nextInvoked = false
    ∧ (Middleware ⟨false, 1, 10, false, 7⟩ ⟨fun _ => [2], fun _ => some 100⟩
        ⟨"a", none⟩ 10).state.Sentences "a" = some 17
    ∧ (Middleware ⟨false, 1, 10, false, 7⟩ ⟨fun _ => [2], fun _ => some 100⟩
        ⟨"a", none⟩ 10).state.visits "a" = [2, 10] :=
  C3_sentenced_deny_rolling ⟨false, 1, 10, false, 7⟩
    ⟨fun _ => [2], fun _ => some 100⟩ ⟨"a", none⟩ 10 (by decide)

/-- C4: the sentenced check is true exactly when an entry exists whose
expiry is strictly after the current time, and no middleware pass ever
removes an existing sentence entry (expired entries stay on the board
until overwritten). -/
theorem C4_isSentenced_strict_no_removal :
    (∀ (s : SentenceMap) (addr : String) (now : Int),
        isSentenced s addr now = true ↔ ∃ e, s addr = some e ∧ now < e)
    ∧ (∀ (j : Jail) (st : JailState) (req : Request) (now : Int) (b : String),
        st.Sentences b ≠ none →
          (Middleware j st req now).state.Sentences b ≠ none) := by
  constructor
  · intro s addr now
    cases h : s addr with
    | none => simp [isSentenced, h]
    | some release => simp [isSentenced, h]
  · intro j st req now b hb
    have hsent : ∀ (adr : String) (c t : Int),
        sentence st.Sentences adr c t b ≠ none := by
      intro adr c t
      by_cases h : b = adr
      · simp [sentence, h]
      · simpa [sentence, h] using hb
    rcases Middleware_cases j st req now with ⟨_, he⟩ | ⟨_, _, he⟩ | ⟨_, _, he⟩
    · rw [he]
      exact hsent _ _ _
    · rw [he]
      exact hb
    · rw [he]
      exact hsent _ _ _

/-- C4 witness: an entry expiring at 5 is an active sentence at time 4
but not at time 5, and a pass at time 9 leaves the (expired) entry on
the board. -/
theorem C4_isSentenced_strict_no_removal_witness :
    (isSentenced (fun _ => some 5) "a" 4 = true)
    ∧ (¬ isSentenced (fun _ => some 5) "a" 5 = true)
    ∧ (Middleware ⟨false, 3, 10, false, 7⟩ ⟨fun _ => [], fun _ => some 5⟩
        ⟨"a", none⟩ 9).state.Sentences "a" ≠ none := by
  refine ⟨?_, ?_, ?_⟩
  · exact (C4_isSentenced_strict_no_removal.1 (fun _ => some 5) "a" 4).mpr
      ⟨5, rfl, by decide⟩
  · intro h
    rcases (C4_isSentenced_strict_no_removal.1 (fun _ => some 5) "a" 5).mp h with
      ⟨e, he, hlt⟩
    cases he
    exact absurd hlt (by decide)
  · exact C4_isSentenced_strict_no_removal.2 ⟨false, 3, 10, false, 7⟩
      ⟨fun _ => [], fun _ => some 5⟩ ⟨"a", none⟩ 9 "a" (by decide)

/-- C6: in proxied mode the identifier is the forwarded-for header value
verbatim (empty string when absent), in non-proxied mode it is the peer
address; equal headers give equal identifiers in proxied mode, distinct
peer addresses give distinct identifiers in non-proxied mode. -/
theorem C6_identity_resolution (j : Jail) (r1 r2 : Request) :
    (j.isProxied = true → resolveId j r1 = headerGet r1.xForwardedFor)
    ∧ (j.isProxied = true → r1.xForwardedFor = none → resolveId j r1 = "")
    ∧ (j.isProxied = false → resolveId j r1 = r1.remoteAddr)
    ∧ (j.isProxied = true → r1.xForwardedFor = r2.xForwardedFor →
        resolveId j r1 = resolveId j r2)
    ∧ (j.isProxied = false → r1.remoteAddr ≠ r2.remoteAddr →
        resolveId j r1 ≠ resolveId j r2) := by
  refine ⟨?_, ?_, ?_, ?_, ?_⟩
  · intro h
    simp [resolveId, h]
  · intro h hn
    simp [resolveId, h, hn, headerGet]
  · intro h
    simp [resolveId, h]
  · intro h he
    simp [resolveId, h, he]
  · intro h hne
    simpa [resolveId, h] using hne

/-- C6 witness: with identical forwarded-for values and distinct peers,
the two requests resolve to the same identifier under a proxied jail and
to different identifiers under a non-proxied jail; an absent header
resolves to the empty string. -/
theorem C6_identity_resolution_witness :
    resolveId ⟨true, 1, 1, false, 0⟩ ⟨"p1", some "x"⟩
        = resolveId ⟨true, 1, 1, false, 0⟩ ⟨"p2", some "x"⟩
    ∧ resolveId ⟨false, 1, 1, false, 0⟩ ⟨"p1", some "x"⟩
        ≠ resolveId ⟨false, 1, 1, false, 0⟩ ⟨"p2", some "x"⟩
    ∧ resolveId ⟨true, 1, 1, false, 0⟩ ⟨"p1", none⟩ = "" :=
  ⟨(C6_identity_resolution ⟨true, 1, 1, false, 0⟩ ⟨"p1", some "x"⟩
      ⟨"p2", some "x"⟩).2.2.2.1 rfl rfl,
   (C6_identity_resolution ⟨false, 1, 1, false, 0⟩ ⟨"p1", some "x"⟩
      ⟨"p2", some "x"⟩).2.2.2.2 rfl (by decide),
   (C6_identity_resolution ⟨true, 1, 1, false, 0⟩ ⟨"p1", none⟩
      ⟨"p1", none⟩).2.1 rfl rfl⟩

/-- C7: an admitted request invokes the next handler and the middleware
writes nothing; a denied request never invokes it, and the middleware
writes exactly the fixed denial message unless silent denial is
configured, in which case it writes nothing. -/
theorem C7_response_policy (j : Jail) (st : JailState) (req : Request) (now : Int) :
    ((Middleware j st req now).nextInvoked = true →
        (Middleware j st req now).written = "")
    ∧ ((Middleware j st req now).nextInvoked = false → j.NoRespond = false →
        (Middleware j st req now).written = denialMessage)
    ∧ ((Middleware j st req now).nextInvoked = false → j.NoRespond = true →
        (Middleware j st req now).written = "") := by
  rcases Middleware_cases j st req now with ⟨_, he⟩ | ⟨_, _, he⟩ | ⟨_, _, he⟩ <;>
    rw [he]
  · exact ⟨fun h => by simp at h, fun _ h => by simp [h], fun _ h => by simp [h]⟩
  · exact ⟨fun _ => rfl, fun h => by simp at h, fun h => by simp at h⟩
  · exact ⟨fun h => by simp at h, fun _ h => by simp [h], fun _ h => by simp [h]⟩

/-- C7 witness: with threshold 0 the first request is denied and the
non-silent jail writes the fixed message, while the silent jail writes
nothing; with threshold 5 the first request is admitted with nothing
written. -/
theorem C7_response_policy_witness :
    (Middleware ⟨false, 0, 10, false, 0⟩ ⟨fun _ => [], fun _ => none⟩
        ⟨"a", none⟩ 0).written = denialMessage
    ∧ (Middleware ⟨false, 0, 10, true, 0⟩ ⟨fun _ => [], fun _ => none⟩
        ⟨"a", none⟩ 0).written = ""
    ∧ (Middleware ⟨false, 5, 10, false, 0⟩ ⟨fun _ => [], fun _ => none⟩
        ⟨"a", none⟩ 0).written = "" :=
  ⟨(C7_response_policy ⟨false, 0, 10, false, 0⟩ ⟨fun _ => [], fun _ => none⟩
      ⟨"a", none⟩ 0).2.1 (by decide) rfl,
   (C7_response_policy ⟨false, 0, 10, true, 0⟩ ⟨fun _ => [], fun _ => none⟩
      ⟨"a", none⟩ 0).2.2 (by decide) rfl,
   (C7_response_policy ⟨false, 5, 10, false, 0⟩ ⟨fun _ => [], fun _ => none⟩
      ⟨"a", none⟩ 0).1 (by decide)⟩

/-- C9: an admitted request leaves the sentence board exactly as it was
at every identifier; entries are created or overwritten only on the deny
path. -/
theorem C9_admit_frames_sentence_board (j : Jail) (st : JailState) (req : Request)
    (now : Int)
    (h : (Middleware j st req now).nextInvoked = true) (b : String) :
    (Middleware j st req now).state.Sentences b = st.Sentences b := by
  rcases Middleware_cases j st req now with ⟨_, he⟩ | ⟨_, _, he⟩ | ⟨_, _, he⟩
  · rw [he] at h
    cases h
  · rw [he]
  · rw [he] at h
    cases h

/-- C9 witness: an admitted first request leaves the (empty) sentence
board with no entry for the client. -/
theorem C9_admit_frames_sentence_board_witness :
    (Middleware ⟨false, 5, 10, false, 0⟩ ⟨fun _ => [], fun _ => none⟩
        ⟨"a", none⟩ 0).state.Sentences "a" = none :=
  C9_admit_frames_sentence_board ⟨false, 5, 10, false, 0⟩
    ⟨fun _ => [], fun _ => none⟩ ⟨"a", none⟩ 0 (by decide) "a"

/-- C1: with threshold R and no active sentence, a pass is admitted
exactly when the post-recording window count (which includes the current
request) is at most R, and a count of R + 1 means denial plus a fresh
sentence; consequently, starting from nothing, requests 1..R at the same
instant are all admitted and request R + 1 is denied and sentenced. -/
theorem C1_threshold_inclusive (j : Jail) (st : JailState) (req : Request)
    (now : Int) (N : Nat)
    (hs : isSentenced st.Sentences (resolveId j req) now = false)
    (hW : 0 ≤ j.Window) (hR : j.AllowedRequests = (N : Int)) :
    ((Middleware j st req now).nextInvoked = true
        ↔ (postCount j st req now : Int) ≤ j.AllowedRequests)
    ∧ ((postCount j st req now : Int) = j.AllowedRequests + 1 →
        (Middleware j st req now).nextInvoked = false
        ∧ (Middleware j st req now).state.Sentences (resolveId j req)
            = some (now + j.Cooloff))
    ∧ (∀ k, k < N →
        (Middleware j (runN j req now k ⟨fun _ => [], fun _ => none⟩)
          req now).nextInvoked = true)
    ∧ (Middleware j (runN j req now N ⟨fun _ => [], fun _ => none⟩)
        req now).nextInvoked = false
    ∧ (Middleware j (runN j req now N ⟨fun _ => [], fun _ => none⟩)
        req now).state.Sentences (resolveId j req) = some (now + j.Cooloff) := by
  have hiff : (Middleware j st req now).nextInvoked = true
      ↔ (postCount j st req now : Int) ≤ j.AllowedRequests := by
    rcases Middleware_cases j st req now with
      ⟨hst, _⟩ | ⟨_, hle, he⟩ | ⟨_, hgt, he⟩
    · rw [hs] at hst
      cases hst
    · rw [he]
      exact ⟨fun _ => hle, fun _ => rfl⟩
    · rw [he]
      exact ⟨fun h => by simp at h, fun h => absurd h hgt⟩
  have hover : (postCount j st req now : Int) = j.AllowedRequests + 1 →
      (Middleware j st req now).nextInvoked = false
      ∧ (Middleware j st req now).state.Sentences (resolveId j req)
          = some (now + j.Cooloff) := by
    intro hpc
    rcases Middleware_cases j st req now with
      ⟨hst, _⟩ | ⟨_, hle, he⟩ | ⟨_, _, he⟩
    · rw [hs] at hst
      cases hst
    · exfalso
      omega
    · rw [he]
      exact ⟨rfl, by simp [sentence]⟩
  refine ⟨hiff, hover, ?_, ?_, ?_⟩
  · intro k hkN
    obtain ⟨hv, hsn⟩ := runN_empty_inv j req now hW k
      (by rw [hR]; exact_mod_cast Nat.le_of_lt hkN)
    obtain ⟨hpc, hns⟩ := step_at_replicate j req now hW k
      (runN j req now k ⟨fun _ => [], fun _ => none⟩) hv hsn
    rcases Middleware_cases j (runN j req now k ⟨fun _ => [], fun _ => none⟩)
        req now with ⟨hst, _⟩ | ⟨_, _, he⟩ | ⟨_, hgt, he⟩
    · rw [hns] at hst
      cases hst
    · rw [he]
    · exfalso
      apply hgt
      rw [hpc, hR]
      exact_mod_cast hkN
  · obtain ⟨hv, hsn⟩ := runN_empty_inv j req now hW N (le_of_eq hR.symm)
    obtain ⟨hpc, hns⟩ := step_at_replicate j req now hW N
      (runN j req now N ⟨fun _ => [], fun _ => none⟩) hv hsn
    rcases Middleware_cases j (runN j req now N ⟨fun _ => [], fun _ => none⟩)
        req now with ⟨hst, _⟩ | ⟨_, hle, he⟩ | ⟨_, _, he⟩
    · rw [hns] at hst
      cases hst
    · exfalso
      rw [hpc, hR] at hle
      push_cast at hle
      omega
    · rw [he]
  · obtain ⟨hv, hsn⟩ := runN_empty_inv j req now hW N (le_of_eq hR.symm)
    obtain ⟨hpc, hns⟩ := step_at_replicate j req now hW N
      (runN j req now N ⟨fun _ => [], fun _ => none⟩) hv hsn
    rcases Middleware_cases j (runN j req now N ⟨fun _ => [], fun _ => none⟩)
        req now with ⟨hst, _⟩ | ⟨_, hle, he⟩ | ⟨_, _, he⟩
    · rw [hns] at hst
      cases hst
    · exfalso
      rw [hpc, hR] at hle
      push_cast at hle
      omega
    · rw [he]
      simp [sentence]

/-- C1 witness: threshold 2, window 10, empty start at time 0 — the
admit-iff-count characterization holds for the first pass, the first two
passes are admitted, and the third is denied. -/
theorem C1_threshold_inclusive_witness :
    ((Middleware ⟨false, 2, 10, false, 7⟩ ⟨fun _ => [], fun _ => none⟩
        ⟨"a", none⟩ 0).nextInvoked = true
      ↔ (postCount ⟨false, 2, 10, false, 7⟩ ⟨fun _ => [], fun _ => none⟩
          ⟨"a", none⟩ 0 : Int) ≤ 2)
    ∧ (Middleware ⟨false, 2, 10, false, 7⟩
        (runN ⟨false, 2, 10, false, 7⟩ ⟨"a", none⟩ 0 1 ⟨fun _ => [], fun _ => none⟩)
        ⟨"a", none⟩ 0).nextInvoked = true
    ∧ (Middleware ⟨false, 2, 10, false, 7⟩
        (runN ⟨false, 2, 10, false, 7⟩ ⟨"a", none⟩ 0 2 ⟨fun _ => [], fun _ => none⟩)
        ⟨"a", none⟩ 0).nextInvoked = false :=
  ⟨(C1_threshold_inclusive ⟨false, 2, 10, false, 7⟩ ⟨fun _ => [], fun _ => none⟩
      ⟨"a", none⟩ 0 2 (by decide) (by decide) rfl).1,
   (C1_threshold_inclusive ⟨false, 2, 10, false, 7⟩ ⟨fun _ => [], fun _ => none⟩
      ⟨"a", none⟩ 0 2 (by decide) (by decide) rfl).2.2.1 1 (by decide),
   (C1_threshold_inclusive ⟨false, 2, 10, false, 7⟩ ⟨fun _ => [], fun _ => none⟩
      ⟨"a", none⟩ 0 2 (by decide) (by decide) rfl).2.2.2.1⟩

/-- C5: every pass appends exactly one visit, stamped with the current
time, to the resolved identifier's sequence and touches no other
identifier at the logging step; the resulting stored sequence is that
append, possibly pruned; and a sequence of timestamps that was
non-decreasing and bounded by the current time stays non-decreasing. -/
theorem C5_every_request_logged_monotone (j : Jail) (st : JailState)
    (req : Request) (now : Int) :
    LogVisit st.visits (resolveId j req) now (resolveId j req)
        = st.visits (resolveId j req) ++ [now]
    ∧ (∀ b, b ≠ resolveId j req →
        LogVisit st.visits (resolveId j req) now b = st.visits b)
    ∧ ((Middleware j st req now).state.visits (resolveId j req)
          = st.visits (resolveId j req) ++ [now]
        ∨ (Middleware j st req now).state.visits (resolveId j req)
          = (st.visits (resolveId j req) ++ [now]).filter
              (visitFresh (now - j.Window)))
    ∧ ((∀ v ∈ st.visits (resolveId j req), v ≤ now) →
        List.Pairwise (fun x y => x ≤ y) (st.visits (resolveId j req)) →
        List.Pairwise (fun x y => x ≤ y)
          ((Middleware j st req now).state.visits (resolveId j req))) := by
  have h3 : (Middleware j st req now).state.visits (resolveId j req)
        = st.visits (resolveId j req) ++ [now]
      ∨ (Middleware j st req now).state.visits (resolveId j req)
        = (st.visits (resolveId j req) ++ [now]).filter
            (visitFresh (now - j.Window)) := by
    rcases Middleware_cases j st req now with
      ⟨_, he⟩ | ⟨_, _, he⟩ | ⟨_, _, he⟩ <;> rw [he]
    · left
      exact LogVisit_self _ _ _
    · right
      rw [show (⟨true, "", ⟨(CountVisits (LogVisit st.visits (resolveId j req) now)
            (resolveId j req) (now - j.Window)).2, st.Sentences⟩⟩ : MwResult).state.visits
          = (CountVisits (LogVisit st.visits (resolveId j req) now)
            (resolveId j req) (now - j.Window)).2 from rfl,
        CountVisits_snd_self, LogVisit_self]
    · right
      rw [show (⟨false, if j.NoRespond then "" else denialMessage,
            ⟨(CountVisits (LogVisit st.visits (resolveId j req) now)
              (resolveId j req) (now - j.Window)).2,
             sentence st.Sentences (resolveId j req) j.Cooloff now⟩⟩ : MwResult).state.visits
          = (CountVisits (LogVisit st.visits (resolveId j req) now)
            (resolveId j req) (now - j.Window)).2 from rfl,
        CountVisits_snd_self, LogVisit_self]
  refine ⟨LogVisit_self _ _ _, ?_, h3, ?_⟩
  · intro b hb
    simp [LogVisit, hb]
  · intro hub hpw
    have happ : List.Pairwise (fun x y => x ≤ y)
        (st.visits (resolveId j req) ++ [now]) := by
      rw [List.pairwise_append]
      refine ⟨hpw, by simp, ?_⟩
      intro a ha b hb
      rw [List.mem_singleton] at hb
      subst hb
      exact hub a ha
    rcases h3 with h | h <;> rw [h]
    · exact happ
    · exact happ.sublist (List.filter_sublist _)

/-- C5 witness: a ledger holding [1, 2] for the client, with a pass at
time 9, is still non-decreasing afterwards. -/
theorem C5_every_request_logged_monotone_witness :
    List.Pairwise (fun x y : Int => x ≤ y)
      ((Middleware ⟨false, 5, 10, false, 0⟩ ⟨fun _ => [1, 2], fun _ => none⟩
          ⟨"a", none⟩ 9).state.visits "a") :=
  (C5_every_request_logged_monotone ⟨false, 5, 10, false, 0⟩
      ⟨fun _ => [1, 2], fun _ => none⟩ ⟨"a", none⟩ 9).2.2.2
    (by decide) (by decide)

/-- C8: `CountVisits` is exactly an unlocked read step followed by an
unlocked write-back step, and the interleaving in which a concurrent
`LogVisit` lands between the two loses the logged visit: sequentially
the count after the append is 1, but the interleaved execution ends with
an empty stored sequence and count 0 — the appended visit at time 5,
fresh for cutoff 0, is gone. -/
theorem C8_unlocked_countVisits_loses_update :
    (∀ (m : VisitMap) (addr : String) (since : Int),
        CountVisits m addr since
          = countVisitsWriteStep m addr (countVisitsReadStep m addr) since)
    ∧ LogVisit (fun _ => []) "c" 5 "c" = [5]
    ∧ visitFresh 0 5 = true
    ∧ (CountVisits (LogVisit (fun _ => []) "c" 5) "c" 0).1 = 1
    ∧ (interleavedLostUpdate (fun _ => []) "c" 5 0).2 "c" = []
    ∧ (interleavedLostUpdate (fun _ => []) "c" 5 0).1 = 0 :=
  ⟨fun _ _ _ => rfl, by decide, by decide, by decide, by decide, by decide⟩

/-- C10: the basic constructor leaves the cooloff at its zero value, so
a sentence imposed at time `now` expires at exactly `now`, is already
inactive at any time at or after `now`, and — once every board entry is
in the past — admission for such a jail is decided purely by the window
count against the threshold. -/
theorem C10_basic_jail_zero_cooloff (ws ar : Int) (nr : Bool) :
    (NewBasicJail ws ar nr).Cooloff = 0
    ∧ (∀ (s : SentenceMap) (addr : String) (now : Int),
        sentence s addr (NewBasicJail ws ar nr).Cooloff now addr = some now)
    ∧ (∀ (s : SentenceMap) (addr : String) (now now2 : Int), now ≤ now2 →
        isSentenced (sentence s addr (NewBasicJail ws ar nr).Cooloff now) addr now2
          = false)
    ∧ (∀ (st : JailState) (req : Request) (now : Int),
        (∀ b e, st.Sentences b = some e → e ≤ now) →
        ((Middleware (NewBasicJail ws ar nr) st req now).nextInvoked = true
          ↔ (postCount (NewBasicJail ws ar nr) st req now : Int) ≤ ar)) := by
  refine ⟨rfl, ?_, ?_, ?_⟩
  · intro s addr now
    simp [sentence, NewBasicJail]
  · intro s addr now now2 h
    have hentry : sentence s addr (NewBasicJail ws ar nr).Cooloff now addr
        = some (now + 0) := by
      simp [sentence, NewBasicJail]
    unfold isSentenced
    rw [hentry]
    simp only [decide_eq_false_iff_not]
    omega
  · intro st req now hb
    have hns : isSentenced st.Sentences
        (resolveId (NewBasicJail ws ar nr) req) now = false := by
      cases h : st.Sentences (resolveId (NewBasicJail ws ar nr) req) with
      | none => simp [isSentenced, h]
      | some e =>
        have he := hb _ _ h
        unfold isSentenced
        rw [h]
        simp only [decide_eq_false_iff_not]
        omega
    rcases Middleware_cases (NewBasicJail ws ar nr) st req now with
      ⟨hst, _⟩ | ⟨_, hle, he⟩ | ⟨_, hgt, he⟩
    · rw [hns] at hst
      cases hst
    · rw [he]
      exact ⟨fun _ => hle, fun _ => rfl⟩
    · rw [he]
      exact ⟨fun h => by simp at h, fun h => absurd h hgt⟩

/-- C10 witness: with the basic jail, a sentence imposed at 3 is already
inactive at 3, and at time 5, with a stale entry expiring at 2, the pass
is admitted exactly when the window count is within the threshold. -/
theorem C10_basic_jail_zero_cooloff_witness :
    isSentenced (sentence (fun _ => none) "a" (NewBasicJail 1 2 false).Cooloff 3)
        "a" 3 = false
    ∧ ((Middleware (NewBasicJail 1 2 false) ⟨fun _ => [], fun _ => some 2⟩
          ⟨"a", none⟩ 5).nextInvoked = true
        ↔ (postCount (NewBasicJail 1 2 false) ⟨fun _ => [], fun _ => some 2⟩
            ⟨"a", none⟩ 5 : Int) ≤ 2) :=
  ⟨(C10_basic_jail_zero_cooloff 1 2 false).2.2.1 (fun _ => none) "a" 3 3 (by decide),
   (C10_basic_jail_zero_cooloff 1 2 false).2.2.2 ⟨fun _ => [], fun _ => some 2⟩
      ⟨"a", none⟩ 5 (fun b e h => by cases h; decide)⟩

end Httpjail
